import Mathlib

/-!
Verification of the Instagram Content Downloader repository.

The Python modules `src/downloader.py`, `src/utils.py`, `src/auth.py` and
`src/batch.py` are shallowly embedded below.  Python floats are modelled as
exact rationals (`ℚ`), Python strings as Lean `String` / `List Char`,
raised exceptions as `Option` / `Except` failure values, and the process
environment and the filesystem as explicit function arguments.
-/

/-! ### RateLimiter (src/downloader.py, lines 30-109) -/

/-- State of the adaptive rate limiter from `src/downloader.py`. -/
structure RateLimiter where
  base_delay : ℚ
  min_delay : ℚ
  max_delay : ℚ
  current_delay : ℚ
  error_count : ℕ
  success_count : ℕ
deriving Repr, DecidableEq

/-- Model of `RateLimiter.__init__(base_delay=3.0, min_delay=2.0, max_delay=30.0)`. -/
def RateLimiter.init (base_delay : ℚ := 3) (min_delay : ℚ := 2)
    (max_delay : ℚ := 30) : RateLimiter :=
  { base_delay := base_delay
    min_delay := min_delay
    max_delay := max_delay
    current_delay := base_delay
    error_count := 0
    success_count := 0 }

/-- The delay actually slept by `RateLimiter.wait`:
`max(self.min_delay, min(self.current_delay, self.max_delay))`. -/
def RateLimiter.waitDelay (r : RateLimiter) : ℚ :=
  max r.min_delay (min r.current_delay r.max_delay)

/-- Model of `RateLimiter.wait`: it sleeps for `waitDelay` and leaves the state unchanged. -/
def RateLimiter.wait (r : RateLimiter) : ℚ × RateLimiter :=
  (r.waitDelay, r)

/-- Model of `RateLimiter.on_success`: zero the error counter, bump the success
counter, and once it reaches 10 decay the delay by `0.9` (clamped below by
`min_delay`) and zero the success counter. -/
def RateLimiter.on_success (r : RateLimiter) : RateLimiter :=
  let r1 : RateLimiter := { r with error_count := 0, success_count := r.success_count + 1 }
  if 10 ≤ r1.success_count then
    { r1 with
      current_delay := max r1.min_delay (r1.current_delay * (9/10))
      success_count := 0 }
  else r1

/-- Model of `RateLimiter.on_error(is_rate_limit)`: zero the success counter, bump the
error counter, and grow the delay by `2.0` (rate-limit errors) or `1.2`
(other errors), clamped above by `max_delay`. -/
def RateLimiter.on_error (r : RateLimiter) (is_rate_limit : Bool) : RateLimiter :=
  let r1 : RateLimiter := { r with success_count := 0, error_count := r.error_count + 1 }
  if is_rate_limit then
    { r1 with current_delay := min r1.max_delay (r1.current_delay * 2) }
  else
    { r1 with current_delay := min r1.max_delay (r1.current_delay * (6/5)) }

/-- Model of `RateLimiter.reset`: restore the base delay and zero both counters. -/
def RateLimiter.reset (r : RateLimiter) : RateLimiter :=
  { r with current_delay := r.base_delay, error_count := 0, success_count := 0 }

/-- The delay-bound invariant claimed by the spec. -/
def RateLimiter.Inv (r : RateLimiter) : Prop :=
  r.min_delay ≤ r.current_delay ∧ r.current_delay ≤ r.max_delay

instance (r : RateLimiter) : Decidable r.Inv := by
  unfold RateLimiter.Inv; infer_instance

/-! ### calculate_rate_limit_delay (src/utils.py, lines 225-244) -/

/-- Model of `calculate_rate_limit_delay(error_count, base_delay=3.0, multiplier=1.5,
max_delay=300.0)` from `src/utils.py`. -/
def calculate_rate_limit_delay (error_count : ℕ) (base_delay : ℚ := 3)
    (multiplier : ℚ := 3/2) (max_delay : ℚ := 300) : ℚ :=
  let delay := base_delay * multiplier ^ error_count
  min delay max_delay

/-! ### Python string helpers -/

/-- The whitespace characters removed by Python `str.strip()` (ASCII part:
space, tab, newline, carriage return, vertical tab, form feed). -/
def pyIsSpace (c : Char) : Bool :=
  c = ' ' || c = '\t' || c = '\n' || c = '\r' || c = Char.ofNat 11 || c = Char.ofNat 12

/-- Python `str.strip()` on the character list of a string. -/
def pyStrip (l : List Char) : List Char :=
  ((l.dropWhile pyIsSpace).reverse.dropWhile pyIsSpace).reverse

/-- The characters matched by the username character class `[a-zA-Z0-9._]`. -/
def isAllowedChar (c : Char) : Bool :=
  ('a' ≤ c && c ≤ 'z') || ('A' ≤ c && c ≤ 'Z') || ('0' ≤ c && c ≤ '9') ||
    c = '.' || c = '_'

/-- Python `str.lower()` on a single character (ASCII case). -/
def pyLowerChar (c : Char) : Char :=
  if 'A' ≤ c ∧ c ≤ 'Z' then Char.ofNat (c.toNat + 32) else c

/-! ### validate_username (src/utils.py, lines 18-61) -/

/-- Model of `validate_username` from `src/utils.py`: rejects (`none` models a raised
`ValueError`) empty input, strips whitespace, rejects lengths outside 1..30,
characters outside `[a-zA-Z0-9._]`, and a leading or trailing dot, and
otherwise returns the stripped input lowercased. -/
def validate_username (username : String) : Option String :=
  if username.data = [] then none
  else
    let u := pyStrip username.data
    if u.length < 1 ∨ 30 < u.length then none
    else if ¬ (u.all isAllowedChar = true) then none
    else if u.head? = some '.' then none
    else if u.getLast? = some '.' then none
    else some (String.mk (u.map pyLowerChar))

/-- The acceptance condition stated by claim C9, on the stripped input. -/
def ValidUsername (u : List Char) : Prop :=
  1 ≤ u.length ∧ u.length ≤ 30 ∧ u.all isAllowedChar = true ∧
    u.head? ≠ some '.' ∧ u.getLast? ≠ some '.'

instance (u : List Char) : Decidable (ValidUsername u) := by
  unfold ValidUsername; infer_instance

/-! ### Theorems for C1-C4 -/

/-- A `RateLimiter` whose parameters satisfy `0 ≤ min_delay ≤ base_delay ≤ max_delay`. -/
def RateLimiter.GoodParams (r : RateLimiter) : Prop :=
  0 ≤ r.min_delay ∧ r.min_delay ≤ r.base_delay ∧ r.base_delay ≤ r.max_delay

/-- C1 (counterexample): with the all-negative parameters
`base_delay = min_delay = max_delay = -1` (which satisfy
`min_delay ≤ base_delay ≤ max_delay`) the invariant holds initially but is
destroyed by a single `on_error(is_rate_limit=True)` call, which doubles the
negative delay below `min_delay`. -/
theorem rateLimiter_inv_cex :
    ((-1 : ℚ) ≤ -1 ∧ (-1 : ℚ) ≤ -1) ∧
    (RateLimiter.init (-1) (-1) (-1)).Inv ∧
    ¬ ((RateLimiter.init (-1) (-1) (-1)).on_error true).Inv := by
  refine ⟨⟨le_refl _, le_refl _⟩, ⟨le_refl _, le_refl _⟩, ?_⟩
  intro h
  have h1 : ((RateLimiter.init (-1) (-1) (-1)).on_error true).current_delay = -2 := by
    norm_num [RateLimiter.init, RateLimiter.on_error]
  have h2 : ((RateLimiter.init (-1) (-1) (-1)).on_error true).min_delay = -1 := rfl
  rw [RateLimiter.Inv, h1, h2] at h
  norm_num at h

/-- C1 (amended): if additionally `0 ≤ min_delay`, then the invariant
`min_delay ≤ current_delay ≤ max_delay` holds for a freshly constructed
`RateLimiter` with `min_delay ≤ base_delay ≤ max_delay` and is preserved by
`wait`, `on_success`, `on_error` (both classifications) and `reset`. -/
theorem rateLimiter_inv_preserved :
    (∀ base_delay min_delay max_delay : ℚ, 0 ≤ min_delay →
      min_delay ≤ base_delay → base_delay ≤ max_delay →
      (RateLimiter.init base_delay min_delay max_delay).Inv) ∧
    (∀ r : RateLimiter, r.GoodParams → r.Inv →
      r.wait.2.Inv ∧ r.on_success.Inv ∧
      (r.on_error true).Inv ∧ (r.on_error false).Inv ∧ r.reset.Inv) := by
  constructor
  · intro b mn mx _ h1 h2
    exact ⟨h1, h2⟩
  · rintro r ⟨h0, h1, h2⟩ ⟨hl, hu⟩
    have hminmax : r.min_delay ≤ r.max_delay := h1.trans h2
    have hc : 0 ≤ r.current_delay := h0.trans hl
    refine ⟨⟨hl, hu⟩, ?_, ?_, ?_, ⟨h1, h2⟩⟩
    · unfold RateLimiter.on_success
      by_cases hif : 10 ≤ r.success_count + 1
      · simp only [hif, if_pos, RateLimiter.Inv]
        constructor
        · exact le_max_left _ _
        · refine max_le hminmax ?_
          calc r.current_delay * (9/10) ≤ r.current_delay := by nlinarith
            _ ≤ r.max_delay := hu
      · simp only [hif, if_neg, RateLimiter.Inv, not_false_iff]
        exact ⟨hl, hu⟩
    · unfold RateLimiter.on_error
      simp only [if_pos, RateLimiter.Inv]
      constructor
      · refine le_min hminmax ?_
        calc r.min_delay ≤ r.current_delay := hl
          _ ≤ r.current_delay * 2 := by nlinarith
      · exact min_le_left _ _
    · unfold RateLimiter.on_error
      simp only [if_neg, Bool.false_eq_true, not_false_iff, RateLimiter.Inv]
      constructor
      · refine le_min hminmax ?_
        calc r.min_delay ≤ r.current_delay := hl
          _ ≤ r.current_delay * (6/5) := by nlinarith
      · exact min_le_left _ _

/-- C1 (witness): the amended invariant theorem applied at the default
parameters `base_delay = 3`, `min_delay = 2`, `max_delay = 30`. -/
theorem rateLimiter_inv_preserved_witness :
    (RateLimiter.init 3 2 30).Inv ∧ ((RateLimiter.init 3 2 30).on_error true).Inv := by
  have hinit := rateLimiter_inv_preserved.1 3 2 30 (by norm_num) (by norm_num) (by norm_num)
  have hstep := rateLimiter_inv_preserved.2 (RateLimiter.init 3 2 30)
    ⟨by norm_num [RateLimiter.init], by norm_num [RateLimiter.init], by norm_num [RateLimiter.init]⟩
    hinit
  exact ⟨hinit, hstep.2.2.1⟩

/-- C2: a call of `on_success` on a state with `success_count = 9` (the 10th
consecutive success) sets `current_delay` to
`max(min_delay, current_delay * 0.9)` and resets `success_count` to 0, while a
call with `success_count < 9` leaves `current_delay` unchanged and merely
increments `success_count`; `on_error` resets the success counter to 0. -/
theorem on_success_decay_spec :
    ∀ r : RateLimiter,
      (r.success_count = 9 →
        r.on_success.current_delay = max r.min_delay (r.current_delay * (9/10)) ∧
        r.on_success.success_count = 0) ∧
      (r.success_count < 9 →
        r.on_success.current_delay = r.current_delay ∧
        r.on_success.success_count = r.success_count + 1) ∧
      (∀ b : Bool, (r.on_error b).success_count = 0) := by
  intro r
  refine ⟨?_, ?_, ?_⟩
  · intro h9
    have hif : 10 ≤ r.success_count + 1 := by omega
    simp [RateLimiter.on_success, hif]
  · intro hlt
    have hif : ¬ 10 ≤ r.success_count + 1 := by omega
    simp [RateLimiter.on_success, hif]
  · intro b
    unfold RateLimiter.on_error
    cases b <;> simp

/-- C2 (witness): the decay theorem evaluated on a concrete state with
`success_count = 9` and on the fresh default state (`success_count = 0`). -/
theorem on_success_decay_spec_witness :
    ((⟨3, 2, 30, 3, 0, 9⟩ : RateLimiter).on_success.current_delay = max 2 (3 * (9/10)) ∧
      (⟨3, 2, 30, 3, 0, 9⟩ : RateLimiter).on_success.success_count = 0) ∧
    ((RateLimiter.init 3 2 30).on_success.current_delay = 3 ∧
      (RateLimiter.init 3 2 30).on_success.success_count = 1) := by
  refine ⟨(on_success_decay_spec ⟨3, 2, 30, 3, 0, 9⟩).1 rfl, ?_⟩
  have h := (on_success_decay_spec (RateLimiter.init 3 2 30)).2.1 (by norm_num [RateLimiter.init])
  exact h

/-- C3: `on_error(is_rate_limit=True)` sets `current_delay` to
`min(max_delay, current_delay * 2.0)`, `on_error(is_rate_limit=False)` sets it
to `min(max_delay, current_delay * 1.2)`, and both reset `success_count` to 0
and increment `error_count` by 1. -/
theorem on_error_spec :
    ∀ r : RateLimiter,
      (r.on_error true).current_delay = min r.max_delay (r.current_delay * 2) ∧
      (r.on_error false).current_delay = min r.max_delay (r.current_delay * (6/5)) ∧
      (∀ b : Bool, (r.on_error b).success_count = 0 ∧
        (r.on_error b).error_count = r.error_count + 1) := by
  intro r
  refine ⟨rfl, rfl, ?_⟩
  intro b
  cases b <;> exact ⟨rfl, rfl⟩

/-- C4: `calculate_rate_limit_delay` returns exactly
`min(base_delay * multiplier ^ error_count, max_delay)`, and its Python
defaults are `base_delay = 3.0`, `multiplier = 1.5`, `max_delay = 300.0`. -/
theorem calculate_rate_limit_delay_spec :
    ∀ (error_count : ℕ) (base_delay multiplier max_delay : ℚ),
      calculate_rate_limit_delay error_count base_delay multiplier max_delay
        = min (base_delay * multiplier ^ error_count) max_delay ∧
      calculate_rate_limit_delay error_count
        = min (3 * (3/2) ^ error_count) 300 := by
  intro e b m M
  exact ⟨rfl, rfl⟩

/-- C9: `validate_username s` returns some value exactly when the stripped
input has length 1..30, consists only of `a-z`, `A-Z`, `0-9`, `_`, `.`, and
neither starts nor ends with a dot, and in that case the value returned is
the stripped input lowercased (`s.strip().lower()`); otherwise it raises
(`none`). -/
theorem validate_username_spec (s : String) :
    validate_username s =
      if ValidUsername (pyStrip s.data)
      then some (String.mk ((pyStrip s.data).map pyLowerChar))
      else none := by
  simp only [validate_username]
  by_cases hempty : s.data = []
  · rw [if_pos hempty, if_neg]
    rintro ⟨v1, -⟩
    rw [hempty] at v1
    simp [pyStrip] at v1
  · rw [if_neg hempty]
    by_cases hA : (pyStrip s.data).length < 1 ∨ 30 < (pyStrip s.data).length
    · rw [if_pos hA, if_neg]
      rintro ⟨v1, v2, -⟩
      omega
    · rw [if_neg hA]
      by_cases hB : ¬ ((pyStrip s.data).all isAllowedChar = true)
      · rw [if_pos hB, if_neg]
        rintro ⟨-, -, v3, -⟩
        exact hB v3
      · rw [if_neg hB]
        by_cases hC : (pyStrip s.data).head? = some '.'
        · rw [if_pos hC, if_neg]
          rintro ⟨-, -, -, v4, -⟩
          exact v4 hC
        · rw [if_neg hC]
          by_cases hD : (pyStrip s.data).getLast? = some '.'
          · rw [if_pos hD, if_neg]
            rintro ⟨-, -, -, -, v5⟩
            exact v5 hD
          · rw [if_neg hD, if_pos]
            push_neg at hA
            exact ⟨by omega, by omega, not_not.mp hB, hC, hD⟩

example : validate_username "  User.Name " = some "user.name" := by decide
example : validate_username ".abc" = none := by decide
example : validate_username "abc." = none := by decide
example : validate_username "ab cd" = none := by decide
example : validate_username "   " = none := by decide

/-! ### extract_username_from_url (src/utils.py, lines 64-116)

`urllib.parse.urlparse` is modelled only as far as the code uses it: the
`path` component of the parse (scheme split at the first `:` when the piece
before it is a valid scheme, authority delimited by `//` up to the next `/`
or `?`, fragment cut at the first `#`, query cut at the first `?`). -/

/-- Characters before the first occurrence of `c`. -/
def takeUntil (c : Char) (l : List Char) : List Char :=
  l.takeWhile (fun x => x ≠ c)

/-- Split at the first occurrence of the character `c`: the part before it
and, when `c` occurs, the part after it. -/
def splitFirstChar (c : Char) : List Char → List Char × Option (List Char)
  | [] => ([], none)
  | x :: xs =>
    if x = c then ([], some xs)
    else
      let p := splitFirstChar c xs
      (x :: p.1, p.2)

/-- Predicate `listStartsWith p l` holds when `p` is an initial segment of `l`. -/
def listStartsWith : List Char → List Char → Bool
  | [], _ => true
  | _ :: _, [] => false
  | a :: ps, b :: ls => a = b && listStartsWith ps ls

/-- Split at the first occurrence of the substring `sep` (assumed nonempty in
all uses): the part before it and the part after it. -/
def splitFirstSub (sep : List Char) : List Char → Option (List Char × List Char)
  | [] => if sep = [] then some ([], []) else none
  | x :: xs =>
    if listStartsWith sep (x :: xs) then some ([], (x :: xs).drop sep.length)
    else
      match splitFirstSub sep xs with
      | some (b, a) => some (x :: b, a)
      | none => none

/-- Python `sep in url` (substring occurrence). -/
def containsSub (sep l : List Char) : Bool :=
  (splitFirstSub sep l).isSome

/-- Characters allowed inside a URL scheme (`urllib.parse.scheme_chars`). -/
def schemeChar (c : Char) : Bool :=
  c.isAlpha || c.isDigit || c = '+' || c = '-' || c = '.'

/-- Whether the piece before the first `:` qualifies as a URL scheme. -/
def isValidScheme : List Char → Bool
  | [] => false
  | c :: cs => c.isAlpha && cs.all schemeChar

/-- The `path` component of `urllib.parse.urlparse`. -/
def urlparsePath (l : List Char) : List Char :=
  let l1 := takeUntil '#' l
  let l2 :=
    match splitFirstChar ':' l1 with
    | (before, some after) => if isValidScheme before then after else l1
    | (_, none) => l1
  let l3 :=
    if listStartsWith ['/', '/'] l2 then
      (l2.drop 2).dropWhile (fun c => c ≠ '/' && c ≠ '?')
    else l2
  takeUntil '?' l3

/-- Python `str.strip('/')`. -/
def stripSlashes (l : List Char) : List Char :=
  ((l.dropWhile (fun c => c = '/')).reverse.dropWhile (fun c => c = '/')).reverse

/-- Model of `extract_username_from_url` from `src/utils.py`: strip whitespace; a bare
name (no `http` start, no `@` start, no `/`) is validated directly; `@name`
drops the `@`; an `http...` URL takes the first path segment when the
slash-stripped path is nonempty; otherwise anything containing
`instagram.com` takes the piece between `instagram.com/` and the next `/`;
otherwise the call raises (`none`). -/
def extract_username_from_url (url : String) : Option String :=
  let u := pyStrip url.data
  if ¬ listStartsWith "http".data u ∧ ¬ listStartsWith "@".data u ∧
      ¬ (u.contains '/' = true) then
    validate_username (String.mk u)
  else if listStartsWith "@".data u then
    validate_username (String.mk (u.drop 1))
  else
    let case3 : Option (Option String) :=
      if listStartsWith "http".data u then
        let path := stripSlashes (urlparsePath u)
        if path ≠ [] then some (validate_username (String.mk (takeUntil '/' path)))
        else none
      else none
    match case3 with
    | some r => r
    | none =>
      if containsSub "instagram.com".data u then
        match splitFirstSub ("instagram.com/".data) u with
        | some (_, rest) =>
          let part1 :=
            match splitFirstSub ("instagram.com/".data) rest with
            | some (b, _) => b
            | none => rest
          let username := takeUntil '/' part1
          if username ≠ [] then validate_username (String.mk username) else none
        | none => none
      else none

example : extract_username_from_url "https://www.instagram.com/username/" = some "username" := by decide
example : extract_username_from_url "https://instagram.com/username" = some "username" := by decide
example : extract_username_from_url "instagram.com/username/" = some "username" := by decide
example : extract_username_from_url "www.instagram.com/username" = some "username" := by decide
example : extract_username_from_url "@username" = some "username" := by decide
example : extract_username_from_url "user_name.123" = some "user_name.123" := by decide
example : extract_username_from_url "" = none := by decide

/-! ### parse_profile_list_file (src/utils.py, lines 265-310) -/

/-- The two exceptions `parse_profile_list_file` can raise. -/
inductive ParseError where
  | fileNotFound
  | valueError
deriving Repr, DecidableEq

/-- The contribution of one line of the profile-list file: `none` for a line
that is skipped (blank after stripping, comment starting with `#`, or one on
which `extract_username_from_url` raises a `ValueError`, which the code logs
and swallows). -/
def lineUsername (line : String) : Option String :=
  let l := pyStrip line.data
  if l = [] then none
  else if l.head? = some '#' then none
  else extract_username_from_url (String.mk l)

/-- Model of `parse_profile_list_file` from `src/utils.py`, over a file modelled as
`none` (the file does not exist) or `some lines`. -/
def parse_profile_list_file (file : Option (List String)) :
    Except ParseError (List String) :=
  match file with
  | none => Except.error ParseError.fileNotFound
  | some lines =>
    let profiles := lines.foldl
      (fun acc line =>
        match lineUsername line with
        | some u => acc ++ [u]
        | none => acc) []
    if profiles = [] then Except.error ParseError.valueError
    else Except.ok profiles

/-- The accumulating fold of `parse_profile_list_file` collects exactly the
`filterMap` of the per-line extraction, in file order. -/
theorem foldl_lineUsername_eq_filterMap (ls : List String) (acc : List String) :
    ls.foldl
      (fun acc line =>
        match lineUsername line with
        | some u => acc ++ [u]
        | none => acc) acc = acc ++ ls.filterMap lineUsername := by
  induction ls generalizing acc with
  | nil => simp
  | cons hd tl ih =>
    cases h : lineUsername hd <;>
      simp [List.foldl_cons, h, List.filterMap_cons, ih]

/-- C10: `parse_profile_list_file` raises `FileNotFoundError` exactly when
the file does not exist; otherwise it collects, in file order, the usernames
of the lines that are not blank, not comments, and from which a valid
username can be extracted (all other lines are skipped, never raised on),
raising `ValueError` exactly when no username remains. -/
theorem parse_profile_list_file_spec (file : Option (List String)) :
    parse_profile_list_file file =
      match file with
      | none => Except.error ParseError.fileNotFound
      | some lines =>
        if lines.filterMap lineUsername = [] then Except.error ParseError.valueError
        else Except.ok (lines.filterMap lineUsername) := by
  cases file with
  | none => rfl
  | some lines =>
    simp only [parse_profile_list_file, foldl_lineUsername_eq_filterMap, List.nil_append]

example :
    parse_profile_list_file (some ["", "# Komentarz", "username1",
      "https://instagram.com/username2/", "@username3", "", "# Kolejny"]) =
      Except.ok ["username1", "username2", "username3"] := by rfl
example :
    parse_profile_list_file (some ["# Tylko komentarze", ""]) =
      Except.error ParseError.valueError := by rfl
example : parse_profile_list_file none = Except.error ParseError.fileNotFound := by rfl
example :
    parse_profile_list_file (some ["valid_username", "invalid@username", "another_valid"]) =
      Except.ok ["valid_username", "another_valid"] := by rfl

/-! ### SessionEncryption and AuthManager._save_session (src/auth.py)

The `cryptography` library's Fernet cipher, UTF-8 string encoding, PBKDF2 and
the process environment are external to the repository.  PBKDF2 key material
is modelled symbolically by the constructor `DerivedKey.pbkdf2HmacSha256`
(standing for `urlsafe_b64encode(pbkdf2_hmac('sha256', password, salt,
iterations))`), the environment as a function `String → Option String`, and
Fernet plus the string codec as an abstract `FernetLib` record whose
round-trip properties are taken as hypotheses where needed. -/

/-- The key material produced by `SessionEncryption._derive_key`: either the
raw value of the `SESSION_ENCRYPTION_KEY` environment variable, or a
PBKDF2-HMAC-SHA256 derivation (urlsafe-base64-encoded) from a passphrase,
salt and iteration count. -/
inductive DerivedKey where
  | raw (key : String)
  | pbkdf2HmacSha256 (password : String) (salt : String) (iterations : ℕ)
deriving Repr, DecidableEq

/-- Whether the key material went through the key-derivation function. -/
def DerivedKey.isPbkdf2 : DerivedKey → Bool
  | .pbkdf2HmacSha256 _ _ _ => true
  | .raw _ => false

/-- Python `a or b` for `os.getenv` results (`None` and `""` are falsy). -/
def pyOrStr (a : Option String) (b : String) : String :=
  match a with
  | some s => if s = "" then b else s
  | none => b

/-- Evaluation of `os.getenv('USER') or os.getenv('USERNAME') or 'default'`. -/
def system_user (env : String → Option String) : String :=
  pyOrStr (env "USER") (pyOrStr (env "USERNAME") "default")

/-- The fallback passphrase `f"ig_downloader_{system_user}_secret"`. -/
def machinePassphrase (env : String → Option String) : String :=
  "ig_downloader_" ++ system_user env ++ "_secret"

/-- The fixed KDF salt `b'instagram_downloader_salt_v1'`. -/
def kdfSalt : String := "instagram_downloader_salt_v1"

/-- Model of `SessionEncryption._derive_key` from `src/auth.py`: with a
password, run PBKDF2 on it; with no password, use the
`SESSION_ENCRYPTION_KEY` environment variable directly when it is set and
non-empty, and otherwise run PBKDF2 on the machine-derived passphrase. -/
def SessionEncryption.derive_key (password : Option String)
    (env : String → Option String) : DerivedKey :=
  match password with
  | some p => .pbkdf2HmacSha256 p kdfSalt 100000
  | none =>
    match env "SESSION_ENCRYPTION_KEY" with
    | some k =>
      if k = "" then .pbkdf2HmacSha256 (machinePassphrase env) kdfSalt 100000
      else .raw k
    | none => .pbkdf2HmacSha256 (machinePassphrase env) kdfSalt 100000

/-- Abstract interface to the external Fernet cipher and the `str.encode` /
`bytes.decode` codec, over an abstract byte type `B`. -/
structure FernetLib (B : Type) where
  fernetEncrypt : DerivedKey → B → B
  fernetDecrypt : DerivedKey → B → Option B
  strEncode : String → B
  strDecode : B → Option String

/-- Model of `SessionEncryption.encrypt`: `self.fernet.encrypt(data.encode())`. -/
def SessionEncryption.encrypt {B : Type} (lib : FernetLib B) (key : DerivedKey)
    (data : String) : B :=
  lib.fernetEncrypt key (lib.strEncode data)

/-- Model of `SessionEncryption.decrypt`:
`self.fernet.decrypt(encrypted_data).decode()` (`none` models a raised
exception). -/
def SessionEncryption.decrypt {B : Type} (lib : FernetLib B) (key : DerivedKey)
    (encrypted_data : B) : Option String :=
  (lib.fernetDecrypt key encrypted_data).bind lib.strDecode

/-- An environment in which `SESSION_ENCRYPTION_KEY` is set to `"abc123"`. -/
def envSessionKey : String → Option String :=
  fun name => if name = "SESSION_ENCRYPTION_KEY" then some "abc123" else none

/-! ### JSON values and the session filesystem -/

/-- The fragment of JSON used by the session metadata sidecar. -/
inductive JValue where
  | str (s : String)
  | bool (b : Bool)
deriving Repr, DecidableEq

/-- A JSON object, as dumped by `json.dump` (insertion-ordered key/value
pairs). -/
def JObject : Type := List (String × JValue)

/-- Contents a file can hold in the model: plain text, opaque bytes, or a
JSON object. -/
inductive FileContent (B : Type) where
  | text (s : String)
  | bin (b : B)
  | jsonObj (o : JObject)

/-- A filesystem: paths to optional file contents. -/
def FS (B : Type) : Type := String → Option (FileContent B)

/-- Writing (creating or overwriting) one file. -/
def fsWrite {B : Type} (fs : FS B) (path : String) (c : FileContent B) : FS B :=
  fun p => if p = path then some c else fs p

/-- The fields of `AuthManager` that `_save_session` reads. -/
structure AuthManagerState where
  session_dir : String
  encrypt_sessions : Bool
  encryption : Option DerivedKey

/-- Model of `AuthManager._save_session` from `src/auth.py` (success path):
build the metadata object, have the loader write the session blob to
`session_<username>`, overwrite it with its encryption when
`self.encrypt_sessions and self.encryption`, and write the metadata object
to the `session.json` sidecar.  `sessionBlob` is the content the external
loader's `save_session_to_file` produces; `now` is
`datetime.now().isoformat()`. -/
def AuthManager.save_session {B : Type} (lib : FernetLib B)
    (mgr : AuthManagerState) (username : String) (now : String)
    (sessionBlob : String) (fs : FS B) : FS B :=
  let session_data : JObject :=
    [("username", JValue.str username),
     ("timestamp", JValue.str now),
     ("encrypted", JValue.bool mgr.encrypt_sessions)]
  let session_file_path := mgr.session_dir ++ "/session_" ++ username
  let fs1 := fsWrite fs session_file_path (FileContent.text sessionBlob)
  let fs2 :=
    if mgr.encrypt_sessions then
      match mgr.encryption with
      | some key =>
        fsWrite fs1 session_file_path
          (FileContent.bin (SessionEncryption.encrypt lib key sessionBlob))
      | none => fs1
    else fs1
  let metadata_file := mgr.session_dir ++ "/session.json"
  fsWrite fs2 metadata_file (FileContent.jsonObj session_data)

/-! ### Theorems for C5, C6, C8 -/

/-- C5 (counterexample): with no password and `SESSION_ENCRYPTION_KEY` set in
the environment, `_derive_key` returns the environment value directly and
does not run the key-derivation function at all. -/
theorem derive_key_env_cex :
    SessionEncryption.derive_key none envSessionKey = DerivedKey.raw "abc123" ∧
    DerivedKey.isPbkdf2 (SessionEncryption.derive_key none envSessionKey) = false := by
  exact ⟨rfl, rfl⟩

/-- C5 (amended): with a password, the key is PBKDF2-HMAC-SHA256 of it with
the fixed salt `instagram_downloader_salt_v1` and 100000 iterations
(urlsafe-base64-encoded); with no password, the same KDF is applied to the
machine-derived passphrase only when `SESSION_ENCRYPTION_KEY` is unset or
empty, while a set, non-empty `SESSION_ENCRYPTION_KEY` is used directly as
the key. -/
theorem derive_key_spec :
    (∀ (p : String) (env : String → Option String),
      SessionEncryption.derive_key (some p) env
        = DerivedKey.pbkdf2HmacSha256 p kdfSalt 100000) ∧
    (∀ env : String → Option String,
      env "SESSION_ENCRYPTION_KEY" = none ∨ env "SESSION_ENCRYPTION_KEY" = some "" →
      SessionEncryption.derive_key none env
        = DerivedKey.pbkdf2HmacSha256 (machinePassphrase env) kdfSalt 100000) ∧
    (∀ (env : String → Option String) (k : String),
      env "SESSION_ENCRYPTION_KEY" = some k → k ≠ "" →
      SessionEncryption.derive_key none env = DerivedKey.raw k) := by
  refine ⟨fun p env => rfl, ?_, ?_⟩
  · intro env h
    rcases h with h | h <;> simp [SessionEncryption.derive_key, h]
  · intro env k h hk
    simp [SessionEncryption.derive_key, h, hk]

/-- C5 (witness): the derivation rules evaluated on concrete environments. -/
theorem derive_key_spec_witness :
    SessionEncryption.derive_key (some "hunter2") (fun _ => none)
      = DerivedKey.pbkdf2HmacSha256 "hunter2" kdfSalt 100000 ∧
    SessionEncryption.derive_key none (fun _ => none)
      = DerivedKey.pbkdf2HmacSha256 (machinePassphrase (fun _ => none)) kdfSalt 100000 ∧
    SessionEncryption.derive_key none envSessionKey = DerivedKey.raw "abc123" :=
  ⟨derive_key_spec.1 "hunter2" (fun _ => none),
   derive_key_spec.2.1 (fun _ => none) (Or.inl rfl),
   derive_key_spec.2.2 envSessionKey "abc123" rfl (by decide)⟩

/-- C6: for every run of `_save_session` that completes without error, the
sidecar file `session.json` in the session directory afterwards holds a JSON
object with exactly the three keys `username` (the given username),
`timestamp` (the save time) and `encrypted` (the manager's
`encrypt_sessions` flag), in that order. -/
theorem save_session_metadata_spec :
    ∀ (B : Type) (lib : FernetLib B) (mgr : AuthManagerState)
      (username now sessionBlob : String) (fs : FS B),
      AuthManager.save_session lib mgr username now sessionBlob fs
          (mgr.session_dir ++ "/session.json")
        = some (FileContent.jsonObj
            [("username", JValue.str username),
             ("timestamp", JValue.str now),
             ("encrypted", JValue.bool mgr.encrypt_sessions)]) := by
  intro B lib mgr username now sessionBlob fs
  simp [AuthManager.save_session, fsWrite]

/-- C8: `decrypt` inverts `encrypt` for the `SessionEncryption` built from
any password (including `None`) in any environment, given the round-trip
contracts of the external Fernet cipher and of the UTF-8 string codec. -/
theorem session_encryption_roundtrip :
    ∀ (B : Type) (lib : FernetLib B) (password : Option String)
      (env : String → Option String) (data : String),
      (∀ k b, lib.fernetDecrypt k (lib.fernetEncrypt k b) = some b) →
      (∀ s, lib.strDecode (lib.strEncode s) = some s) →
      SessionEncryption.decrypt lib (SessionEncryption.derive_key password env)
          (SessionEncryption.encrypt lib (SessionEncryption.derive_key password env) data)
        = some data := by
  intro B lib password env data hf hs
  simp [SessionEncryption.decrypt, SessionEncryption.encrypt, hf, hs]

/-- A trivially correct cipher used to instantiate the round-trip theorem. -/
def idFernetLib : FernetLib String :=
  { fernetEncrypt := fun _ b => b
    fernetDecrypt := fun _ b => some b
    strEncode := fun s => s
    strDecode := fun s => some s }

/-- C8 (witness): the round trip evaluated on a concrete cipher, key and
payload. -/
theorem session_encryption_roundtrip_witness :
    SessionEncryption.decrypt idFernetLib
        (SessionEncryption.derive_key none (fun _ => none))
        (SessionEncryption.encrypt idFernetLib
          (SessionEncryption.derive_key none (fun _ => none)) "cookie-jar")
      = some "cookie-jar" :=
  session_encryption_roundtrip String idFernetLib none (fun _ => none) "cookie-jar"
    (fun _ _ => rfl) (fun _ => rfl)

/-! ### BatchDownloader.download_from_list (src/batch.py, lines 147-212)

The external `downloader.download_profile` call is modelled by a function
from usernames to outcomes; the observable sequencing (profile downloads and
the sleeps between them) is recorded as an event trace. -/

/-- What one `downloader.download_profile(username, ...)` call does: return a
result dict whose `success` flag is `success`, raise an ordinary exception,
or raise `KeyboardInterrupt`. -/
inductive DlOutcome where
  | ok (success : Bool)
  | exn
  | interrupt
deriving Repr, DecidableEq

/-- The `self.stats` dictionary of `BatchDownloader`. -/
structure BatchStats where
  total : ℕ
  completed : ℕ
  failed : ℕ
  skipped : ℕ
deriving Repr, DecidableEq

/-- The stats set up by `BatchDownloader.__init__`. -/
def BatchStats.initStats : BatchStats :=
  { total := 0, completed := 0, failed := 0, skipped := 0 }

/-- Observable events of the batch loop: one profile download, or one
`delay_between`-second sleep. -/
inductive BEvent where
  | call (username : String)
  | wait (seconds : ℕ)
deriving Repr, DecidableEq

/-- The stats update of one loop iteration (`interrupt` leaves the stats
untouched because the loop breaks before updating them). -/
def stepStats (st : BatchStats) : DlOutcome → BatchStats
  | .ok true => { st with completed := st.completed + 1 }
  | .ok false => { st with failed := st.failed + 1 }
  | .exn => { st with failed := st.failed + 1 }
  | .interrupt => st


/-- The `for i, username in enumerate(usernames, 1)` loop of
`download_from_list`: call the downloader; on `KeyboardInterrupt` break out,
otherwise update the stats and sleep `delay_between` seconds unless the
profile was the last one. -/
def BatchDownloader.loopFromList (dl : String → DlOutcome) (delay_between : ℕ) :
    List String → BatchStats → BatchStats × List BEvent
  | [], st => (st, [])
  | u :: rest, st =>
    if dl u = DlOutcome.interrupt then (st, [BEvent.call u])
    else
      let st' := stepStats st (dl u)
      if rest.isEmpty then (st', [BEvent.call u])
      else
        let p := BatchDownloader.loopFromList dl delay_between rest st'
        (p.1, BEvent.call u :: BEvent.wait delay_between :: p.2)

/-- Model of `BatchDownloader.download_from_list`: set `stats['total']` to the
list length and run the loop. -/
def BatchDownloader.download_from_list (dl : String → DlOutcome)
    (delay_between : ℕ) (st : BatchStats) (usernames : List String) :
    BatchStats × List BEvent :=
  BatchDownloader.loopFromList dl delay_between usernames
    { st with total := usernames.length }

/-- The trace claim C7 describes: each username called once, in list order,
with one wait between consecutive profiles and none after the last. -/
def expectedTrace (delay_between : ℕ) : List String → List BEvent
  | [] => []
  | [u] => [BEvent.call u]
  | u :: rest => BEvent.call u :: BEvent.wait delay_between :: expectedTrace delay_between rest

/-- Unfolding of `expectedTrace` on a list with at least two elements. -/
theorem expectedTrace_cons (d : ℕ) (u : String) (rest : List String)
    (h : rest ≠ []) :
    expectedTrace d (u :: rest)
      = BEvent.call u :: BEvent.wait d :: expectedTrace d rest := by
  cases rest with
  | nil => exact absurd rfl h
  | cons v rest' => rfl

/-- One non-interrupt iteration adds exactly one download to
`completed + failed` and never touches `total`. -/
theorem stepStats_add_one (st : BatchStats) (o : DlOutcome)
    (h : o ≠ DlOutcome.interrupt) :
    (stepStats st o).completed + (stepStats st o).failed
        = st.completed + st.failed + 1 ∧
    (stepStats st o).total = st.total := by
  cases o with
  | ok success => cases success <;> simp [stepStats] <;> omega
  | exn => simp [stepStats]; omega
  | interrupt => exact absurd rfl h

/-- Invariant of the batch loop on interrupt-free inputs: the trace is the
expected one and the downloaded count grows by exactly the list length,
while `total` is untouched. -/
theorem loopFromList_spec (dl : String → DlOutcome) (delay_between : ℕ) :
    ∀ (l : List String) (st : BatchStats),
      (∀ u ∈ l, dl u ≠ DlOutcome.interrupt) →
      (BatchDownloader.loopFromList dl delay_between l st).2
          = expectedTrace delay_between l ∧
      (BatchDownloader.loopFromList dl delay_between l st).1.completed
          + (BatchDownloader.loopFromList dl delay_between l st).1.failed
          = st.completed + st.failed + l.length ∧
      (BatchDownloader.loopFromList dl delay_between l st).1.total = st.total := by
  intro l
  induction l with
  | nil =>
    intro st _
    exact ⟨rfl, rfl, rfl⟩
  | cons u rest ih =>
    intro st h
    have hu : dl u ≠ DlOutcome.interrupt := h u (by simp)
    have hrest : ∀ v ∈ rest, dl v ≠ DlOutcome.interrupt :=
      fun v hv => h v (by simp [hv])
    have hstep := stepStats_add_one st (dl u) hu
    by_cases hre : rest = []
    · subst hre
      simp only [BatchDownloader.loopFromList, if_neg hu, List.isEmpty_nil, if_pos]
      refine ⟨rfl, ?_, hstep.2⟩
      have h1 := hstep.1
      simp only [List.length_cons, List.length_nil]
      omega
    · have hne : ¬ rest.isEmpty = true := by simpa using hre
      have ihr := ih (stepStats st (dl u)) hrest
      have htr := expectedTrace_cons delay_between u rest hre
      simp only [BatchDownloader.loopFromList, if_neg hu, if_neg hne]
      refine ⟨?_, ?_, ?_⟩
      · rw [htr, ihr.1]
      · have h1 := ihr.2.1
        have h2 := hstep.1
        simp only [List.length_cons]
        omega
      · rw [ihr.2.2, hstep.2]

/-- C7: on an interrupt-free run, `download_from_list` downloads each
username exactly once, sequentially in list order, waiting `delay_between`
seconds between consecutive profiles but not after the last, and the
returned stats satisfy `completed + failed = total = len(usernames)`. -/
theorem download_from_list_spec :
    ∀ (dl : String → DlOutcome) (delay_between : ℕ) (usernames : List String),
      (∀ u ∈ usernames, dl u ≠ DlOutcome.interrupt) →
      (BatchDownloader.download_from_list dl delay_between BatchStats.initStats
          usernames).2 = expectedTrace delay_between usernames ∧
      (BatchDownloader.download_from_list dl delay_between BatchStats.initStats
          usernames).1.completed
        + (BatchDownloader.download_from_list dl delay_between BatchStats.initStats
          usernames).1.failed
        = (BatchDownloader.download_from_list dl delay_between BatchStats.initStats
          usernames).1.total ∧
      (BatchDownloader.download_from_list dl delay_between BatchStats.initStats
          usernames).1.total = usernames.length := by
  intro dl delay_between usernames h
  have hloop := loopFromList_spec dl delay_between usernames
    { BatchStats.initStats with total := usernames.length } h
  simp only [BatchDownloader.download_from_list]
  refine ⟨hloop.1, ?_, hloop.2.2⟩
  rw [hloop.2.1, hloop.2.2]
  simp [BatchStats.initStats]

/-- A downloader stub that succeeds everywhere except on `"bob"`, where the
result dict carries `success = False`. -/
def dlExample : String → DlOutcome :=
  fun u => DlOutcome.ok (u != "bob")

/-- C7 (witness): the batch theorem evaluated on a three-profile list with
one failing profile. -/
theorem download_from_list_spec_witness :
    (BatchDownloader.download_from_list dlExample 60 BatchStats.initStats
        ["alice", "bob", "carol"]).2
      = expectedTrace 60 ["alice", "bob", "carol"] ∧
    (BatchDownloader.download_from_list dlExample 60 BatchStats.initStats
        ["alice", "bob", "carol"]).1.completed
      + (BatchDownloader.download_from_list dlExample 60 BatchStats.initStats
        ["alice", "bob", "carol"]).1.failed
      = (BatchDownloader.download_from_list dlExample 60 BatchStats.initStats
        ["alice", "bob", "carol"]).1.total ∧
    (BatchDownloader.download_from_list dlExample 60 BatchStats.initStats
        ["alice", "bob", "carol"]).1.total = 3 :=
  download_from_list_spec dlExample 60 ["alice", "bob", "carol"]
    (fun u _ => by simp [dlExample])

example :
    BatchDownloader.download_from_list dlExample 60 BatchStats.initStats
        ["alice", "bob", "carol"]
      = ({ total := 3, completed := 2, failed := 1, skipped := 0 },
         [BEvent.call "alice", BEvent.wait 60, BEvent.call "bob", BEvent.wait 60,
          BEvent.call "carol"]) := by decide
